import Mathlib

/-!
Shallow embedding of the event reconciliation and split-adjustment engine of
the Schwab JSON converter (function process_schwab_json of converter_schwab.py).

Modelling choices:
* Python dates are modelled as (year, month, day) triples of naturals; the
  Python date ordering is modelled through the ordinal year*10000+month*100+day
  which coincides with calendar order for valid dates (month at most 12, day at
  most 31).
* Python floats carrying monetary amounts and share quantities are modelled
  as rationals; the integer sold-share counts of sale details are integers.
* Python dicts keyed by (year, month, award_id) or by date are modelled as
  association lists in insertion order; insertion appends at the end, exactly
  as a Python dict preserves insertion order.
* The row constructors from_schwab_json / from_schwab_lapse_json /
  from_schwab_deposit_json / to_dividend_row / to_dict and the JSON parsing
  live outside the scope of this file (external module
  data_structures_dataframe); a transaction therefore arrives already carrying
  its parsed row(s), and the exact (Action, Description) tag dispatch of the
  classifier becomes a match on the constructors of the Tx type, one
  constructor per recognised tag pair. Rows whose contents the engine never
  reads (dividends, sell orders, currency conversions, money transfers, buy
  orders) are modelled as records with one opaque payload field.
* A Python raise is modelled by returning (some err, s) where s is the state
  at the moment of the raise (a raise mutates nothing); the per-transaction
  loop stops at the first error.
-/

namespace SchwabConv

/-- Calendar date, mirroring Python datetime.date as used by the converter. -/
structure Date where
  year : Nat
  month : Nat
  day : Nat
deriving DecidableEq

/-- Ordinal used to compare dates; agrees with calendar order for valid dates. -/
def Date.toNat (d : Date) : Nat :=
  d.year * 10000 + d.month * 100 + d.day

/-- Key of the RSU deposit/lapse dictionaries: (date.year, date.month, award_id). -/
abbrev GrantKey := Nat × Nat × String

/-- RSU row; only the fields read or written by process_schwab_json are kept.
The same record shape serves deposit rows and lapse rows, as in the source
where both sides are RSURow objects. -/
structure RSURow where
  date : Date
  gross_quantity : ℚ
  net_quantity : ℚ
  fair_market_value : ℚ
  sold : ℚ
deriving DecidableEq

/-- ESPP row; only the fields read or written by process_schwab_json are kept. -/
structure ESPPRow where
  date : Date
  quantity : ℚ
  buy_price : ℚ
  fair_market_value : ℚ
  sold : ℚ
deriving DecidableEq

/-- Dividend-shaped row (also the target of to_dividend_row); opaque payload. -/
structure DividendRow where
  payload : Nat
deriving DecidableEq

/-- Sell order row; opaque payload, the engine only appends it. -/
structure SellOrderRow where
  payload : Nat
deriving DecidableEq

/-- Currency conversion row; opaque payload. -/
structure CurrencyConversionRow where
  payload : Nat
deriving DecidableEq

/-- Money transfer row; opaque payload. -/
structure MoneyTransferRow where
  payload : Nat
deriving DecidableEq

/-- Buy order row; opaque payload (the converter never constructs a real one). -/
structure BuyOrderRow where
  payload : Nat
deriving DecidableEq

/-- An element of an output category: a real row, or the empty-valued
placeholder produced by the empty_dict class methods. -/
inductive Entry (α : Type) where
  | row (r : α)
  | empty
deriving DecidableEq

/-- One entry of the TransactionDetails list of a sale transaction, already parsed:
the Type field selects the constructor, VestDate/PurchaseDate are parsed dates,
Shares is int(details["Shares"]). Details of any other Type are skipped. -/
inductive SaleDetail where
  | rs (vestDate : Date) (grantId : String) (shares : Int)
  | espp (purchaseDate : Date) (shares : Int)
  | otherType
deriving DecidableEq

/-- One raw transaction after external row parsing. Each constructor is one
recognised (Action, Description) tag pair of the classifier; `other` is any
unrecognised pair (silently dropped). A wire transfer carries both parses of
the same raw record, one per setting of forex_transfer_as_exchange; a tax
withholding / reversal carries the result of to_dividend_row. -/
inductive Tx where
  | esppDeposit (espp : ESPPRow)
  | rsuLapse (tmp : RSURow) (award_id : String)
  | rsuDeposit (tmp : RSURow) (award_id : String)
  | dividend (row : DividendRow)
  | sale (row : SellOrderRow) (details : List SaleDetail)
  | wireTransfer (conv : CurrencyConversionRow) (transfer : MoneyTransferRow)
  | taxWithholding (asDividend : DividendRow)
  | taxReversal (asDividend : DividendRow)
  | other
deriving DecidableEq

/-- Association-list lookup, first match wins (keys are kept unique). -/
def alookup {κ α : Type} [DecidableEq κ] : List (κ × α) → κ → Option α
  | [], _ => none
  | (k1, v) :: rest, k => if k = k1 then some v else alookup rest k

/-- Update the value stored at a key in place, leaving every other pair as is
(models mutating the object held in a Python dict). -/
def aupdate {κ α : Type} [DecidableEq κ] (l : List (κ × α)) (k : κ) (f : α → α) :
    List (κ × α) :=
  l.map (fun p => if p.1 = k then (p.1, f p.2) else p)

/-- The mutable state of process_schwab_json: the per-kind collections and
the two keyed deposit dictionaries plus the lapse dictionary. -/
structure St where
  rsu_events : List (Entry RSURow)
  rsu_deposit_events : List (GrantKey × RSURow)
  rsu_lapse_events : List (GrantKey × RSURow)
  espp_events : List (Entry ESPPRow)
  espp_deposit_events : List (Date × ESPPRow)
  dividend_events : List (Entry DividendRow)
  buy_events : List (Entry BuyOrderRow)
  sell_events : List (Entry SellOrderRow)
  wire_events : List (Entry CurrencyConversionRow)
  money_transfer_events : List (Entry MoneyTransferRow)
deriving DecidableEq

/-- Initial state: every collection empty, except buy_events which is
initialised to the single BuyOrderRow.empty_dict() placeholder (line 67). -/
def initSt : St where
  rsu_events := []
  rsu_deposit_events := []
  rsu_lapse_events := []
  espp_events := []
  espp_deposit_events := []
  dividend_events := []
  buy_events := [Entry.empty]
  sell_events := []
  wire_events := []
  money_transfer_events := []

/-- The fatal errors raised by process_schwab_json. -/
inductive Err where
  | duplicateESPPDeposit (d : Date)
  | duplicateRSULapse (k : GrantKey)
  | duplicateRSUDeposit (k : GrantKey)
  | missingRSULot (k : GrantKey)
  | missingESPPLot (d : Date)
  | countMismatch (nLapse nDeposit : Nat)
  | unmatchedDeposit (k : GrantKey)
deriving DecidableEq

/-- Process one sale detail (body of the loop over TransactionDetails,
lines 108-120): RS details update the sold counter of the RSU deposit, ESPP
details that of the ESPP deposit; a missing lot raises. -/
def processDetail (s : St) : SaleDetail → Option Err × St
  | SaleDetail.rs vestDate grantId shares =>
    let key : GrantKey := (vestDate.year, vestDate.month, grantId)
    match alookup s.rsu_deposit_events key with
    | none => (some (Err.missingRSULot key), s)
    | some _ =>
      let store := aupdate s.rsu_deposit_events key
        (fun r => { r with sold := r.sold + (shares : ℚ) })
      (none, { s with rsu_deposit_events := store })
  | SaleDetail.espp purchaseDate shares =>
    match alookup s.espp_deposit_events purchaseDate with
    | none => (some (Err.missingESPPLot purchaseDate), s)
    | some _ =>
      let store := aupdate s.espp_deposit_events purchaseDate
        (fun r => { r with sold := r.sold + (shares : ℚ) })
      (none, { s with espp_deposit_events := store })
  | SaleDetail.otherType => (none, s)

/-- Process the details of one sale in order, stopping at the first error. -/
def processDetails (s : St) : List SaleDetail → Option Err × St
  | [] => (none, s)
  | d :: ds =>
    match processDetail s d with
    | (some e, s1) => (some e, s1)
    | (none, s1) => processDetails s1 ds

/-- Classify one transaction (body of the loop over d["Transactions"],
lines 74-145), inserting into the keyed stores or appending to the
collections; key collisions raise before the store is touched. -/
def stepTx (forex : Bool) (s : St) : Tx → Option Err × St
  | Tx.esppDeposit espp =>
    if (alookup s.espp_deposit_events espp.date).isSome then
      (some (Err.duplicateESPPDeposit espp.date), s)
    else
      (none,
        { s with espp_deposit_events := s.espp_deposit_events ++ [(espp.date, espp)] })
  | Tx.rsuLapse tmp award_id =>
    let key : GrantKey := (tmp.date.year, tmp.date.month, award_id)
    if (alookup s.rsu_lapse_events key).isSome then
      (some (Err.duplicateRSULapse key), s)
    else
      (none, { s with rsu_lapse_events := s.rsu_lapse_events ++ [(key, tmp)] })
  | Tx.rsuDeposit tmp award_id =>
    let key : GrantKey := (tmp.date.year, tmp.date.month, award_id)
    if (alookup s.rsu_deposit_events key).isSome then
      (some (Err.duplicateRSUDeposit key), s)
    else
      (none,
        { s with rsu_deposit_events := s.rsu_deposit_events ++ [(key, tmp)] })
  | Tx.dividend row =>
    (none, { s with dividend_events := s.dividend_events ++ [Entry.row row] })
  | Tx.sale row details =>
    processDetails
      { s with sell_events := s.sell_events ++ [Entry.row row] } details
  | Tx.wireTransfer conv transfer =>
    if forex then
      (none, { s with wire_events := s.wire_events ++ [Entry.row conv] })
    else
      (none,
        { s with money_transfer_events := s.money_transfer_events ++ [Entry.row transfer] })
  | Tx.taxWithholding asDividend =>
    (none,
      { s with dividend_events := s.dividend_events ++ [Entry.row asDividend] })
  | Tx.taxReversal asDividend =>
    (none,
      { s with dividend_events := s.dividend_events ++ [Entry.row asDividend] })
  | Tx.other => (none, s)

/-- Classify a whole transaction log, stopping at the first error. -/
def processTxs (forex : Bool) (s : St) : List Tx → Option Err × St
  | [] => (none, s)
  | t :: ts =>
    match stepTx forex s t with
    | (some e, s1) => (some e, s1)
    | (none, s1) => processTxs forex s1 ts

/-- Cumulative split factor of a lot (lines 170-174 and 186-190): scan the
split table in the order supplied, stop at the first record whose effective
date is on or before the lot date, multiply in the ratio of every record
seen before that. -/
def splitFactor (lotDate : Date) : List (Date × ℚ) → ℚ
  | [] => 1
  | (d, r) :: rest =>
    if d.toNat ≤ lotDate.toNat then 1 else r * splitFactor lotDate rest

/-- Split reconciliation of one RSU deposit lot against its lapse row
(lines 170-181): reverse the broker adjustment when not fully sold, and
unconditionally take gross quantity from the lapse side divided by the
split factor. -/
def reconcileRSU (splits : List (Date × ℚ)) (rsu rsu_lapse : RSURow) : RSURow :=
  let split_factor := splitFactor rsu.date splits
  let rsu1 :=
    if rsu.sold < rsu.net_quantity then
      { rsu with
        fair_market_value := rsu.fair_market_value * split_factor
        net_quantity := rsu.net_quantity / split_factor }
    else rsu
  { rsu1 with gross_quantity := rsu_lapse.gross_quantity / split_factor }

/-- Split reconciliation of one ESPP deposit lot (lines 186-196). -/
def reconcileESPP (splits : List (Date × ℚ)) (espp : ESPPRow) : ESPPRow :=
  let split_factor := splitFactor espp.date splits
  if espp.sold < espp.quantity then
    { espp with
      fair_market_value := espp.fair_market_value * split_factor
      buy_price := espp.buy_price * split_factor
      quantity := espp.quantity / split_factor }
  else espp

/-- Loop body of lines 158-182: walk the RSU deposit dictionary in insertion
order, raise on a deposit without matching lapse, otherwise append the
reconciled row to the accumulated rsu events. -/
def reconcileRSUFold (splits : List (Date × ℚ)) (lapses : List (GrantKey × RSURow))
    (acc : List (Entry RSURow)) :
    List (GrantKey × RSURow) → Option Err × List (Entry RSURow)
  | [] => (none, acc)
  | (key, rsu) :: rest =>
    match alookup lapses key with
    | none => (some (Err.unmatchedDeposit key), acc)
    | some rsu_lapse =>
      reconcileRSUFold splits lapses
        (acc ++ [Entry.row (reconcileRSU splits rsu rsu_lapse)]) rest

/-- Lines 157-182: RSU reconciliation runs only when there is at least one
lapse event. The deposit dictionary itself is never read after this pass, so
the reconciled copies appended to rsu_events carry the whole effect. -/
def reconcileRSUAll (splits : List (Date × ℚ)) (s : St) : Option Err × St :=
  if 0 < s.rsu_lapse_events.length then
    match reconcileRSUFold splits s.rsu_lapse_events s.rsu_events
        s.rsu_deposit_events with
    | (some e, acc) => (some e, { s with rsu_events := acc })
    | (none, acc) => (none, { s with rsu_events := acc })
  else (none, s)

/-- Lines 185-198: every ESPP deposit is reconciled and appended to the espp
events collection; this pass cannot fail. -/
def reconcileESPPAll (splits : List (Date × ℚ)) (s : St) : St :=
  let adjusted := s.espp_deposit_events.map (fun kv => Entry.row (reconcileESPP splits kv.2))
  { s with espp_events := s.espp_events ++ adjusted }

/-- Lines 200-209: append one empty-valued placeholder row to each of the
five listed collections when it is empty. The rsu and buy collections are
not among them. -/
def addPlaceholders (s : St) : St :=
  { s with
    espp_events :=
      if s.espp_events.length = 0 then s.espp_events ++ [Entry.empty]
      else s.espp_events
    dividend_events :=
      if s.dividend_events.length = 0 then s.dividend_events ++ [Entry.empty]
      else s.dividend_events
    sell_events :=
      if s.sell_events.length = 0 then s.sell_events ++ [Entry.empty]
      else s.sell_events
    wire_events :=
      if s.wire_events.length = 0 then s.wire_events ++ [Entry.empty]
      else s.wire_events
    money_transfer_events :=
      if s.money_transfer_events.length = 0 then
        s.money_transfer_events ++ [Entry.empty]
      else s.money_transfer_events }

/-- The whole of process_schwab_json up to the hand-off to the report writer:
classification, the lapse/deposit count check (line 147), RSU reconciliation,
ESPP reconciliation, placeholder insertion. The split table is the external
input read at line 152-155, in the order supplied. -/
def process (forex : Bool) (txs : List Tx) (splits : List (Date × ℚ)) :
    Option Err × St :=
  match processTxs forex initSt txs with
  | (some e, s) => (some e, s)
  | (none, s) =>
    if s.rsu_lapse_events.length ≠ s.rsu_deposit_events.length then
      (some (Err.countMismatch s.rsu_lapse_events.length
        s.rsu_deposit_events.length), s)
    else
      match reconcileRSUAll splits s with
      | (some e, s1) => (some e, s1)
      | (none, s1) => (none, addPlaceholders (reconcileESPPAll splits s1))

/-- The three keyed stores hold pairwise-distinct keys (Python dict keys). -/
def keysNodup (s : St) : Prop :=
  (s.rsu_deposit_events.map Prod.fst).Nodup ∧
  (s.rsu_lapse_events.map Prod.fst).Nodup ∧
  (s.espp_deposit_events.map Prod.fst).Nodup

/-- Concrete transaction log with one RSU deposit keyed (2021, 1, "A") and one
RSU lapse keyed (2021, 1, "B"): equal counts, but the deposit is unmatched. -/
def wtxsUnmatched : List Tx :=
  [Tx.rsuDeposit ⟨⟨2021, 1, 10⟩, 0, 0, 0, 0⟩ "A",
   Tx.rsuLapse ⟨⟨2021, 1, 5⟩, 0, 0, 0, 0⟩ "B"]

/-- Concrete transaction log with one RSU deposit and no lapse. -/
def wtxsMismatch : List Tx :=
  [Tx.rsuDeposit ⟨⟨2021, 1, 10⟩, 0, 0, 0, 0⟩ "A"]

/-- Concrete state whose three keyed stores each hold one entry, used to
exercise the three duplicate-key branches. -/
def wStDup : St :=
  { initSt with
      espp_deposit_events := [(⟨2020, 5, 5⟩, ⟨⟨2020, 5, 5⟩, 30, 10, 12, 0⟩)],
      rsu_lapse_events := [((2021, 1, "A"), ⟨⟨2021, 1, 5⟩, 0, 0, 0, 0⟩)],
      rsu_deposit_events := [((2021, 1, "A"), ⟨⟨2021, 1, 10⟩, 0, 0, 0, 0⟩)] }

/-- Concrete state with one RSU deposit lot keyed (2021, 1, "A") and one ESPP
deposit lot keyed 2020-05-05, used to exercise the sale attribution pass. -/
def wStSale : St :=
  { initSt with
      rsu_deposit_events := [((2021, 1, "A"), ⟨⟨2021, 1, 10⟩, 0, 100, 50, 0⟩)],
      espp_deposit_events := [(⟨2020, 5, 5⟩, ⟨⟨2020, 5, 5⟩, 30, 10, 12, 0⟩)] }

@[simp] theorem alookup_nil {κ α : Type} [DecidableEq κ] (k : κ) :
    alookup ([] : List (κ × α)) k = none := rfl

@[simp] theorem alookup_cons {κ α : Type} [DecidableEq κ] (k1 k : κ) (v : α)
    (l : List (κ × α)) :
    alookup ((k1, v) :: l) k = if k = k1 then some v else alookup l k := rfl

@[simp] theorem aupdate_nil {κ α : Type} [DecidableEq κ] (k : κ) (f : α → α) :
    aupdate ([] : List (κ × α)) k f = [] := rfl

@[simp] theorem aupdate_cons {κ α : Type} [DecidableEq κ] (k1 k : κ) (v : α)
    (f : α → α) (l : List (κ × α)) :
    aupdate ((k1, v) :: l) k f =
      (if k1 = k then (k1, f v) else (k1, v)) :: aupdate l k f := by
  by_cases h : k1 = k <;> simp [aupdate, h]

theorem alookup_eq_none_iff {κ α : Type} [DecidableEq κ] (l : List (κ × α)) (k : κ) :
    alookup l k = none ↔ k ∉ l.map Prod.fst := by
  induction l with
  | nil => simp [alookup]
  | cons p rest ih =>
    obtain ⟨k1, v⟩ := p
    by_cases h : k = k1 <;> simp [alookup, h, ih]

theorem aupdate_map_fst {κ α : Type} [DecidableEq κ] (l : List (κ × α)) (k : κ)
    (f : α → α) : (aupdate l k f).map Prod.fst = l.map Prod.fst := by
  induction l with
  | nil => rfl
  | cons p rest ih =>
    obtain ⟨k1, v⟩ := p
    by_cases h : k1 = k <;> simp [h, ih]

theorem alookup_aupdate_self {κ α : Type} [DecidableEq κ] (l : List (κ × α))
    (k : κ) (f : α → α) :
    alookup (aupdate l k f) k = (alookup l k).map f := by
  induction l with
  | nil => rfl
  | cons p rest ih =>
    obtain ⟨k1, v⟩ := p
    by_cases h : k1 = k
    · subst h
      simp
    · have h2 : k ≠ k1 := fun hc => h hc.symm
      simp [h, h2, ih]

theorem alookup_aupdate_ne {κ α : Type} [DecidableEq κ] (l : List (κ × α))
    (k k2 : κ) (f : α → α) (h : k2 ≠ k) :
    alookup (aupdate l k f) k2 = alookup l k2 := by
  induction l with
  | nil => rfl
  | cons p rest ih =>
    obtain ⟨k1, v⟩ := p
    by_cases h1 : k1 = k
    · subst h1
      simp [h, ih]
    · by_cases h2 : k2 = k1
      · subst h2
        simp [h1]
      · simp [h1, h2, ih]

theorem nodup_keys_append {κ α : Type} [DecidableEq κ] {l : List (κ × α)} {k : κ}
    {v : α} (hn : (l.map Prod.fst).Nodup) (hk : alookup l k = none) :
    (((l ++ [(k, v)]).map Prod.fst)).Nodup := by
  rw [List.map_append]
  rw [List.nodup_append]
  refine ⟨hn, by simp, ?_⟩
  intro a ha hb
  simp only [List.map_cons, List.map_nil, List.mem_singleton] at hb
  subst hb
  exact (alookup_eq_none_iff l a).mp hk ha

theorem processDetail_keysNodup (s : St) (d : SaleDetail) (h : keysNodup s) :
    keysNodup (processDetail s d).2 := by
  obtain ⟨h1, h2, h3⟩ := h
  cases d with
  | rs vestDate grantId shares =>
    rcases hl : alookup s.rsu_deposit_events (vestDate.year, vestDate.month, grantId) with _ | r
    · have hres : (processDetail s (SaleDetail.rs vestDate grantId shares)).2 = s := by
        simp [processDetail, hl]
      rw [hres]
      exact ⟨h1, h2, h3⟩
    · have hres : (processDetail s (SaleDetail.rs vestDate grantId shares)).2 =
          { s with
              rsu_deposit_events :=
                aupdate s.rsu_deposit_events (vestDate.year, vestDate.month, grantId)
                  (fun r => { r with sold := r.sold + (shares : ℚ) }) } := by
        simp [processDetail, hl]
      rw [hres]
      exact ⟨by rw [aupdate_map_fst] at *; exact h1, h2, h3⟩
  | espp purchaseDate shares =>
    rcases hl : alookup s.espp_deposit_events purchaseDate with _ | r
    · have hres : (processDetail s (SaleDetail.espp purchaseDate shares)).2 = s := by
        simp [processDetail, hl]
      rw [hres]
      exact ⟨h1, h2, h3⟩
    · have hres : (processDetail s (SaleDetail.espp purchaseDate shares)).2 =
          { s with
              espp_deposit_events :=
                aupdate s.espp_deposit_events purchaseDate
                  (fun r => { r with sold := r.sold + (shares : ℚ) }) } := by
        simp [processDetail, hl]
      rw [hres]
      exact ⟨h1, h2, by rw [aupdate_map_fst] at *; exact h3⟩
  | otherType => exact ⟨h1, h2, h3⟩

theorem processDetails_keysNodup (ds : List SaleDetail) (s : St) (h : keysNodup s) :
    keysNodup (processDetails s ds).2 := by
  induction ds generalizing s with
  | nil => exact h
  | cons d rest ih =>
    rcases hd : processDetail s d with ⟨e, s1⟩
    have hs1 : keysNodup s1 := by
      have := processDetail_keysNodup s d h
      rwa [hd] at this
    cases e with
    | none => simpa [processDetails, hd] using ih s1 hs1
    | some err => simpa [processDetails, hd] using hs1

theorem stepTx_keysNodup (forex : Bool) (s : St) (t : Tx) (h : keysNodup s) :
    keysNodup (stepTx forex s t).2 := by
  obtain ⟨h1, h2, h3⟩ := h
  cases t with
  | esppDeposit espp =>
    by_cases hdup : (alookup s.espp_deposit_events espp.date).isSome
    · have hres : (stepTx forex s (Tx.esppDeposit espp)).2 = s := by simp [stepTx, hdup]
      rw [hres]
      exact ⟨h1, h2, h3⟩
    · have hnone : alookup s.espp_deposit_events espp.date = none :=
        Option.not_isSome_iff_eq_none.mp hdup
      have hres : (stepTx forex s (Tx.esppDeposit espp)).2 =
          { s with espp_deposit_events := s.espp_deposit_events ++ [(espp.date, espp)] } := by
        simp [stepTx, hdup]
      rw [hres]
      exact ⟨h1, h2, nodup_keys_append h3 hnone⟩
  | rsuLapse tmp award_id =>
    by_cases hdup : (alookup s.rsu_lapse_events (tmp.date.year, tmp.date.month, award_id)).isSome
    · have hres : (stepTx forex s (Tx.rsuLapse tmp award_id)).2 = s := by simp [stepTx, hdup]
      rw [hres]
      exact ⟨h1, h2, h3⟩
    · have hnone : alookup s.rsu_lapse_events (tmp.date.year, tmp.date.month, award_id) = none :=
        Option.not_isSome_iff_eq_none.mp hdup
      have hres : (stepTx forex s (Tx.rsuLapse tmp award_id)).2 =
          { s with
              rsu_lapse_events :=
                s.rsu_lapse_events ++ [((tmp.date.year, tmp.date.month, award_id), tmp)] } := by
        simp [stepTx, hdup]
      rw [hres]
      exact ⟨h1, nodup_keys_append h2 hnone, h3⟩
  | rsuDeposit tmp award_id =>
    by_cases hdup : (alookup s.rsu_deposit_events (tmp.date.year, tmp.date.month, award_id)).isSome
    · have hres : (stepTx forex s (Tx.rsuDeposit tmp award_id)).2 = s := by simp [stepTx, hdup]
      rw [hres]
      exact ⟨h1, h2, h3⟩
    · have hnone : alookup s.rsu_deposit_events (tmp.date.year, tmp.date.month, award_id) = none :=
        Option.not_isSome_iff_eq_none.mp hdup
      have hres : (stepTx forex s (Tx.rsuDeposit tmp award_id)).2 =
          { s with
              rsu_deposit_events :=
                s.rsu_deposit_events ++ [((tmp.date.year, tmp.date.month, award_id), tmp)] } := by
        simp [stepTx, hdup]
      rw [hres]
      exact ⟨nodup_keys_append h1 hnone, h2, h3⟩
  | dividend row => exact ⟨h1, h2, h3⟩
  | sale row details =>
    exact processDetails_keysNodup details _ ⟨h1, h2, h3⟩
  | wireTransfer conv transfer =>
    cases forex <;> exact ⟨h1, h2, h3⟩
  | taxWithholding asDividend => exact ⟨h1, h2, h3⟩
  | taxReversal asDividend => exact ⟨h1, h2, h3⟩
  | other => exact ⟨h1, h2, h3⟩

theorem processTxs_keysNodup (forex : Bool) (txs : List Tx) (s : St)
    (h : keysNodup s) : keysNodup (processTxs forex s txs).2 := by
  induction txs generalizing s with
  | nil => exact h
  | cons t rest ih =>
    rcases ht : stepTx forex s t with ⟨e, s1⟩
    have hs1 : keysNodup s1 := by
      have := stepTx_keysNodup forex s t h
      rwa [ht] at this
    cases e with
    | none => simpa [processTxs, ht] using ih s1 hs1
    | some err => simpa [processTxs, ht] using hs1

theorem initSt_keysNodup : keysNodup initSt := by
  refine ⟨?_, ?_, ?_⟩ <;> simp [initSt]

theorem reconcileRSUFold_err (splits : List (Date × ℚ))
    (lapses : List (GrantKey × RSURow)) (acc : List (Entry RSURow))
    (deps : List (GrantKey × RSURow))
    (h : ∃ kv ∈ deps, alookup lapses kv.1 = none) :
    ∃ k, (reconcileRSUFold splits lapses acc deps).1 =
      some (Err.unmatchedDeposit k) := by
  induction deps generalizing acc with
  | nil => simp at h
  | cons p rest ih =>
    obtain ⟨key, rsu⟩ := p
    rcases hl : alookup lapses key with _ | rsu_lapse
    · exact ⟨key, by simp [reconcileRSUFold, hl]⟩
    · obtain ⟨kv, hmem, hnone⟩ := h
      rcases List.mem_cons.mp hmem with h1 | h1
      · rw [h1] at hnone
        rw [hl] at hnone
        exact absurd hnone (by simp)
      · have := ih (acc ++ [Entry.row (reconcileRSU splits rsu rsu_lapse)]) ⟨kv, h1, hnone⟩
        simpa [reconcileRSUFold, hl] using this

theorem reconcileRSUAll_err (splits : List (Date × ℚ)) (s : St)
    (hlp : 0 < s.rsu_lapse_events.length)
    (hun : ∃ kv ∈ s.rsu_deposit_events, alookup s.rsu_lapse_events kv.1 = none) :
    ∃ k, (reconcileRSUAll splits s).1 = some (Err.unmatchedDeposit k) := by
  obtain ⟨k, hk⟩ :=
    reconcileRSUFold_err splits s.rsu_lapse_events s.rsu_events s.rsu_deposit_events hun
  refine ⟨k, ?_⟩
  rcases hf : reconcileRSUFold splits s.rsu_lapse_events s.rsu_events
      s.rsu_deposit_events with ⟨fe, acc⟩
  rw [hf] at hk
  simp only at hk
  simp [reconcileRSUAll, hlp, hf, hk]

theorem processDetail_buy (s : St) (d : SaleDetail) :
    (processDetail s d).2.buy_events = s.buy_events := by
  cases d with
  | rs vestDate grantId shares =>
    rcases hl : alookup s.rsu_deposit_events (vestDate.year, vestDate.month, grantId) with _ | r <;>
      simp [processDetail, hl]
  | espp purchaseDate shares =>
    rcases hl : alookup s.espp_deposit_events purchaseDate with _ | r <;>
      simp [processDetail, hl]
  | otherType => rfl

theorem processDetails_buy (ds : List SaleDetail) (s : St) :
    (processDetails s ds).2.buy_events = s.buy_events := by
  induction ds generalizing s with
  | nil => rfl
  | cons d rest ih =>
    rcases hd : processDetail s d with ⟨e, s1⟩
    have hb : s1.buy_events = s.buy_events := by
      have := processDetail_buy s d
      rwa [hd] at this
    cases e with
    | none => rw [show (processDetails s (d :: rest)) = processDetails s1 rest by simp [processDetails, hd], ih s1, hb]
    | some err => simpa [processDetails, hd] using hb

theorem stepTx_buy (forex : Bool) (s : St) (t : Tx) :
    (stepTx forex s t).2.buy_events = s.buy_events := by
  cases t with
  | esppDeposit espp =>
    by_cases hdup : (alookup s.espp_deposit_events espp.date).isSome <;> simp [stepTx, hdup]
  | rsuLapse tmp award_id =>
    by_cases hdup : (alookup s.rsu_lapse_events (tmp.date.year, tmp.date.month, award_id)).isSome <;>
      simp [stepTx, hdup]
  | rsuDeposit tmp award_id =>
    by_cases hdup : (alookup s.rsu_deposit_events (tmp.date.year, tmp.date.month, award_id)).isSome <;>
      simp [stepTx, hdup]
  | dividend row => rfl
  | sale row details => exact processDetails_buy details _
  | wireTransfer conv transfer => cases forex <;> rfl
  | taxWithholding asDividend => rfl
  | taxReversal asDividend => rfl
  | other => rfl

theorem processTxs_buy (forex : Bool) (txs : List Tx) (s : St) :
    (processTxs forex s txs).2.buy_events = s.buy_events := by
  induction txs generalizing s with
  | nil => rfl
  | cons t rest ih =>
    rcases ht : stepTx forex s t with ⟨e, s1⟩
    have hb : s1.buy_events = s.buy_events := by
      have := stepTx_buy forex s t
      rwa [ht] at this
    cases e with
    | none => rw [show (processTxs forex s (t :: rest)) = processTxs forex s1 rest by simp [processTxs, ht], ih s1, hb]
    | some err => simpa [processTxs, ht] using hb

theorem reconcileRSUAll_buy (splits : List (Date × ℚ)) (s : St) :
    (reconcileRSUAll splits s).2.buy_events = s.buy_events := by
  by_cases hlp : 0 < s.rsu_lapse_events.length
  · rcases hf : reconcileRSUFold splits s.rsu_lapse_events s.rsu_events s.rsu_deposit_events with ⟨e, acc⟩
    cases e <;> simp [reconcileRSUAll, hlp, hf]
  · simp [reconcileRSUAll, hlp]

/-- C1: for a split table ordered by effective date descending, the computed
split factor of a deposit lot (RSU or ESPP alike, both loops run the same
scan) equals the product of the ratios of exactly those split records whose
effective date is strictly after the lot date: the scan starts at 1, visits
records most-recent first, multiplies in each ratio, and stops at the first
record whose effective date is on or before the lot date. -/
theorem splitFactor_eq_prod_of_desc (lotDate : Date) (splits : List (Date × ℚ))
    (hdesc : splits.Pairwise (fun a b => b.1.toNat ≤ a.1.toNat)) :
    splitFactor lotDate splits =
      ((splits.filter (fun p => lotDate.toNat < p.1.toNat)).map Prod.snd).prod := by
  induction splits with
  | nil => rfl
  | cons hd tl ih =>
    obtain ⟨d, r⟩ := hd
    rw [List.pairwise_cons] at hdesc
    obtain ⟨hall, htl⟩ := hdesc
    by_cases h : d.toNat ≤ lotDate.toNat
    · have h2 : ((d, r) :: tl).filter (fun p => lotDate.toNat < p.1.toNat) = [] := by
        rw [List.filter_eq_nil_iff]
        intro p hp
        simp only [decide_eq_true_eq, not_lt]
        rcases List.mem_cons.mp hp with h3 | hptl
        · rw [h3]; exact h
        · exact le_trans (hall p hptl) h
      rw [h2]
      simp only [List.map_nil, List.prod_nil, splitFactor]
      rw [if_pos h]
    · have hlt : lotDate.toNat < d.toNat := Nat.lt_of_not_le h
      have h2 : ((d, r) :: tl).filter (fun p => lotDate.toNat < p.1.toNat) =
          (d, r) :: tl.filter (fun p => lotDate.toNat < p.1.toNat) := by
        simp [List.filter_cons, hlt]
      rw [h2]
      simp only [List.map_cons, List.prod_cons, splitFactor]
      rw [if_neg h, ih htl]

/-- Witness for C1 at a concrete descending two-row split table and a lot
date preceding both records. -/
theorem splitFactor_desc_witness :
    ([((⟨2024, 6, 1⟩ : Date), (3 : ℚ)), (⟨2022, 7, 1⟩, 2)]).Pairwise
      (fun a b => b.1.toNat ≤ a.1.toNat) ∧
    splitFactor ⟨2021, 1, 10⟩ [((⟨2024, 6, 1⟩ : Date), (3 : ℚ)), (⟨2022, 7, 1⟩, 2)] =
      ((([((⟨2024, 6, 1⟩ : Date), (3 : ℚ)), (⟨2022, 7, 1⟩, 2)]).filter
          (fun p => (⟨2021, 1, 10⟩ : Date).toNat < p.1.toNat)).map Prod.snd).prod :=
  ⟨by decide, splitFactor_eq_prod_of_desc _ _ (by decide)⟩

/-- C2: if the sold count of a lot is strictly below its quantity (net
quantity for RSU, quantity for ESPP), split reconciliation divides that
quantity by the split factor and multiplies fair market value (and, for ESPP,
also the buy price) by the split factor; if the sold count is greater than or
equal to the quantity, none of these fields is changed. -/
theorem reconcile_reversal (splits : List (Date × ℚ)) (rsu rsu_lapse : RSURow)
    (espp : ESPPRow) :
    (rsu.sold < rsu.net_quantity →
      (reconcileRSU splits rsu rsu_lapse).net_quantity = rsu.net_quantity / splitFactor rsu.date splits ∧
      (reconcileRSU splits rsu rsu_lapse).fair_market_value = rsu.fair_market_value * splitFactor rsu.date splits) ∧
    (rsu.net_quantity ≤ rsu.sold →
      (reconcileRSU splits rsu rsu_lapse).net_quantity = rsu.net_quantity ∧
      (reconcileRSU splits rsu rsu_lapse).fair_market_value = rsu.fair_market_value) ∧
    (espp.sold < espp.quantity →
      (reconcileESPP splits espp).quantity = espp.quantity / splitFactor espp.date splits ∧
      (reconcileESPP splits espp).fair_market_value = espp.fair_market_value * splitFactor espp.date splits ∧
      (reconcileESPP splits espp).buy_price = espp.buy_price * splitFactor espp.date splits) ∧
    (espp.quantity ≤ espp.sold → reconcileESPP splits espp = espp) := by
  refine ⟨fun h => ?_, fun h => ?_, fun h => ?_, fun h => ?_⟩
  · simp [reconcileRSU, if_pos h]
  · simp [reconcileRSU, if_neg (not_lt.mpr h)]
  · simp [reconcileESPP, if_pos h]
  · simp [reconcileESPP, if_neg (not_lt.mpr h)]

/-- Witness for C2: both branches evaluated on concrete RSU and ESPP lots. -/
theorem reconcile_reversal_witness :
    ((⟨⟨2021, 1, 10⟩, 0, 100, 50, 40⟩ : RSURow).sold <
        (⟨⟨2021, 1, 10⟩, 0, 100, 50, 40⟩ : RSURow).net_quantity ∧
      (reconcileRSU [] ⟨⟨2021, 1, 10⟩, 0, 100, 50, 40⟩
          ⟨⟨2021, 1, 10⟩, 500, 0, 0, 0⟩).net_quantity =
        (⟨⟨2021, 1, 10⟩, 0, 100, 50, 40⟩ : RSURow).net_quantity /
          splitFactor (⟨⟨2021, 1, 10⟩, 0, 100, 50, 40⟩ : RSURow).date [] ∧
      (reconcileRSU [] ⟨⟨2021, 1, 10⟩, 0, 100, 50, 40⟩
          ⟨⟨2021, 1, 10⟩, 500, 0, 0, 0⟩).fair_market_value =
        (⟨⟨2021, 1, 10⟩, 0, 100, 50, 40⟩ : RSURow).fair_market_value *
          splitFactor (⟨⟨2021, 1, 10⟩, 0, 100, 50, 40⟩ : RSURow).date []) ∧
    ((⟨⟨2021, 1, 10⟩, 0, 100, 50, 100⟩ : RSURow).net_quantity ≤
        (⟨⟨2021, 1, 10⟩, 0, 100, 50, 100⟩ : RSURow).sold ∧
      (reconcileRSU [] ⟨⟨2021, 1, 10⟩, 0, 100, 50, 100⟩
          ⟨⟨2021, 1, 10⟩, 500, 0, 0, 0⟩).net_quantity =
        (⟨⟨2021, 1, 10⟩, 0, 100, 50, 100⟩ : RSURow).net_quantity ∧
      (reconcileRSU [] ⟨⟨2021, 1, 10⟩, 0, 100, 50, 100⟩
          ⟨⟨2021, 1, 10⟩, 500, 0, 0, 0⟩).fair_market_value =
        (⟨⟨2021, 1, 10⟩, 0, 100, 50, 100⟩ : RSURow).fair_market_value) ∧
    ((⟨⟨2020, 5, 5⟩, 30, 10, 12, 5⟩ : ESPPRow).sold <
        (⟨⟨2020, 5, 5⟩, 30, 10, 12, 5⟩ : ESPPRow).quantity ∧
      (reconcileESPP [] ⟨⟨2020, 5, 5⟩, 30, 10, 12, 5⟩).quantity =
        (⟨⟨2020, 5, 5⟩, 30, 10, 12, 5⟩ : ESPPRow).quantity /
          splitFactor (⟨⟨2020, 5, 5⟩, 30, 10, 12, 5⟩ : ESPPRow).date [] ∧
      (reconcileESPP [] ⟨⟨2020, 5, 5⟩, 30, 10, 12, 5⟩).fair_market_value =
        (⟨⟨2020, 5, 5⟩, 30, 10, 12, 5⟩ : ESPPRow).fair_market_value *
          splitFactor (⟨⟨2020, 5, 5⟩, 30, 10, 12, 5⟩ : ESPPRow).date [] ∧
      (reconcileESPP [] ⟨⟨2020, 5, 5⟩, 30, 10, 12, 5⟩).buy_price =
        (⟨⟨2020, 5, 5⟩, 30, 10, 12, 5⟩ : ESPPRow).buy_price *
          splitFactor (⟨⟨2020, 5, 5⟩, 30, 10, 12, 5⟩ : ESPPRow).date []) ∧
    ((⟨⟨2020, 5, 5⟩, 30, 10, 12, 30⟩ : ESPPRow).quantity ≤
        (⟨⟨2020, 5, 5⟩, 30, 10, 12, 30⟩ : ESPPRow).sold ∧
      reconcileESPP [] ⟨⟨2020, 5, 5⟩, 30, 10, 12, 30⟩ =
        ⟨⟨2020, 5, 5⟩, 30, 10, 12, 30⟩) := by
  have h1 : (⟨⟨2021, 1, 10⟩, 0, 100, 50, 40⟩ : RSURow).sold <
      (⟨⟨2021, 1, 10⟩, 0, 100, 50, 40⟩ : RSURow).net_quantity := by norm_num
  have h2 : (⟨⟨2021, 1, 10⟩, 0, 100, 50, 100⟩ : RSURow).net_quantity ≤
      (⟨⟨2021, 1, 10⟩, 0, 100, 50, 100⟩ : RSURow).sold := by norm_num
  have h3 : (⟨⟨2020, 5, 5⟩, 30, 10, 12, 5⟩ : ESPPRow).sold <
      (⟨⟨2020, 5, 5⟩, 30, 10, 12, 5⟩ : ESPPRow).quantity := by norm_num
  have h4 : (⟨⟨2020, 5, 5⟩, 30, 10, 12, 30⟩ : ESPPRow).quantity ≤
      (⟨⟨2020, 5, 5⟩, 30, 10, 12, 30⟩ : ESPPRow).sold := by norm_num
  obtain ⟨ha, hb⟩ := (reconcile_reversal [] ⟨⟨2021, 1, 10⟩, 0, 100, 50, 40⟩
    ⟨⟨2021, 1, 10⟩, 500, 0, 0, 0⟩ ⟨⟨2020, 5, 5⟩, 30, 10, 12, 5⟩).1 h1
  obtain ⟨hc, hd⟩ := (reconcile_reversal [] ⟨⟨2021, 1, 10⟩, 0, 100, 50, 100⟩
    ⟨⟨2021, 1, 10⟩, 500, 0, 0, 0⟩ ⟨⟨2020, 5, 5⟩, 30, 10, 12, 5⟩).2.1 h2
  obtain ⟨he, hf, hg⟩ := (reconcile_reversal [] ⟨⟨2021, 1, 10⟩, 0, 100, 50, 40⟩
    ⟨⟨2021, 1, 10⟩, 500, 0, 0, 0⟩ ⟨⟨2020, 5, 5⟩, 30, 10, 12, 5⟩).2.2.1 h3
  have hh := (reconcile_reversal [] ⟨⟨2021, 1, 10⟩, 0, 100, 50, 40⟩
    ⟨⟨2021, 1, 10⟩, 500, 0, 0, 0⟩ ⟨⟨2020, 5, 5⟩, 30, 10, 12, 30⟩).2.2.2 h4
  exact ⟨⟨h1, ha, hb⟩, ⟨h2, hc, hd⟩, ⟨h3, he, hf, hg⟩, ⟨h4, hh⟩⟩

/-- C3: the final gross quantity of a reconciled RSU lot equals the gross
quantity of the lapse row sharing its key divided by the split factor of the
lot, in both branches of the partial-sale reversal. -/
theorem reconcileRSU_gross (splits : List (Date × ℚ)) (rsu rsu_lapse : RSURow) :
    (reconcileRSU splits rsu rsu_lapse).gross_quantity =
      rsu_lapse.gross_quantity / splitFactor rsu.date splits := by
  unfold reconcileRSU
  split <;> rfl

/-- C4: the worked example of the spec. An RSU deposit dated 2021-01-10 with
net quantity 100, fair market value 50, 40 shares sold via a sale event, one
split of ratio 4 dated after the lot, and a matching lapse with gross
quantity 500, reconcile to split factor 4, net quantity 25, fair market
value 200 and gross quantity 125. -/
theorem schwab_example_2021 :
    splitFactor ⟨2021, 1, 10⟩ [(⟨2021, 8, 15⟩, 4)] = 4 ∧
    (process false
        [Tx.rsuLapse ⟨⟨2021, 1, 10⟩, 500, 0, 0, 0⟩ "A1",
         Tx.rsuDeposit ⟨⟨2021, 1, 10⟩, 0, 100, 50, 0⟩ "A1",
         Tx.sale ⟨0⟩ [SaleDetail.rs ⟨2021, 1, 10⟩ "A1" 40]]
        [(⟨2021, 8, 15⟩, 4)]).1 = none ∧
    (process false
        [Tx.rsuLapse ⟨⟨2021, 1, 10⟩, 500, 0, 0, 0⟩ "A1",
         Tx.rsuDeposit ⟨⟨2021, 1, 10⟩, 0, 100, 50, 0⟩ "A1",
         Tx.sale ⟨0⟩ [SaleDetail.rs ⟨2021, 1, 10⟩ "A1" 40]]
        [(⟨2021, 8, 15⟩, 4)]).2.rsu_events =
      [Entry.row ⟨⟨2021, 1, 10⟩, 125, 25, 200, 40⟩] := by
  refine ⟨?_, ?_, ?_⟩ <;>
    · norm_num [process, processTxs, stepTx, processDetail, processDetails, initSt,
        alookup, aupdate, reconcileRSUAll, reconcileRSUFold, reconcileRSU,
        reconcileESPPAll, addPlaceholders, splitFactor, Date.toNat]

/-- C5 counterexample: on an empty transaction log the run succeeds, yet the
RSU output category is handed off empty — no placeholder row is inserted into
it, contrary to the claim that an empty category among the seven always
receives one. -/
theorem rsu_no_placeholder_cex :
    (process false [] []).1 = none ∧ (process false [] []).2.rsu_events = [] := by
  decide

/-- C5 (amended): placeholder insertion covers exactly five categories —
ESPP, dividends, sell orders, currency conversions and money transfers
receive one empty-valued placeholder row when empty; the RSU and buy-order
collections pass through this step unchanged (buy orders already hold their
single placeholder from initialization, the RSU collection gets none). -/
theorem addPlaceholders_five_categories (s : St) :
    ((addPlaceholders s).espp_events =
      if s.espp_events = [] then [Entry.empty] else s.espp_events) ∧
    ((addPlaceholders s).dividend_events =
      if s.dividend_events = [] then [Entry.empty] else s.dividend_events) ∧
    ((addPlaceholders s).sell_events =
      if s.sell_events = [] then [Entry.empty] else s.sell_events) ∧
    ((addPlaceholders s).wire_events =
      if s.wire_events = [] then [Entry.empty] else s.wire_events) ∧
    ((addPlaceholders s).money_transfer_events =
      if s.money_transfer_events = [] then [Entry.empty] else s.money_transfer_events) ∧
    (addPlaceholders s).rsu_events = s.rsu_events ∧
    (addPlaceholders s).buy_events = s.buy_events := by
  refine ⟨?_, ?_, ?_, ?_, ?_, rfl, rfl⟩ <;>
    simp [addPlaceholders, List.length_eq_zero] <;> split <;> simp_all

/-- C6: when classification succeeds and some RSU deposit key has no lapse
event sharing it, the run fails; and whenever the lapse/deposit count check
passes, the failure is specifically the unmatched-deposit error — the
failure is thus not pre-empted in every such case by the structural-mismatch
count check. -/
theorem unmatched_deposit_fatal (forex : Bool) (txs : List Tx)
    (splits : List (Date × ℚ))
    (hok : (processTxs forex initSt txs).1 = none)
    (hun : ∃ kv ∈ (processTxs forex initSt txs).2.rsu_deposit_events,
      alookup (processTxs forex initSt txs).2.rsu_lapse_events kv.1 = none) :
    (process forex txs splits).1.isSome = true ∧
    ((processTxs forex initSt txs).2.rsu_lapse_events.length =
        (processTxs forex initSt txs).2.rsu_deposit_events.length →
      ∃ k, (process forex txs splits).1 = some (Err.unmatchedDeposit k)) := by
  rcases hpt : processTxs forex initSt txs with ⟨e, s⟩
  rw [hpt] at hok hun
  simp only at hok hun ⊢
  subst hok
  by_cases hlen : s.rsu_lapse_events.length = s.rsu_deposit_events.length
  · have hdep_pos : 0 < s.rsu_deposit_events.length := by
      obtain ⟨kv, hmem, _⟩ := hun
      exact List.length_pos.mpr (List.ne_nil_of_mem hmem)
    have hlp : 0 < s.rsu_lapse_events.length := by omega
    obtain ⟨k, hk⟩ := reconcileRSUAll_err splits s hlp hun
    rcases hra : reconcileRSUAll splits s with ⟨e2, s1⟩
    rw [hra] at hk
    simp only at hk
    subst hk
    constructor
    · simp [process, hpt, hlen, hra]
    · intro _
      exact ⟨k, by simp [process, hpt, hlen, hra]⟩
  · constructor
    · simp [process, hpt, hlen]
    · intro hcon
      exact absurd hcon hlen

/-- Witness for C6: the log wtxsUnmatched passes the count check (one lapse,
one deposit) and hits the unmatched-deposit error. -/
theorem unmatched_deposit_fatal_witness :
    (processTxs false initSt wtxsUnmatched).1 = none ∧
    (∃ kv ∈ (processTxs false initSt wtxsUnmatched).2.rsu_deposit_events,
      alookup (processTxs false initSt wtxsUnmatched).2.rsu_lapse_events kv.1 = none) ∧
    (∃ k, (process false wtxsUnmatched []).1 = some (Err.unmatchedDeposit k)) := by
  have hok : (processTxs false initSt wtxsUnmatched).1 = none := by
    simp [wtxsUnmatched, processTxs, stepTx, initSt, alookup]
  have hun : ∃ kv ∈ (processTxs false initSt wtxsUnmatched).2.rsu_deposit_events,
      alookup (processTxs false initSt wtxsUnmatched).2.rsu_lapse_events kv.1 = none := by
    simp [wtxsUnmatched, processTxs, stepTx, initSt, alookup]
  have hlen : (processTxs false initSt wtxsUnmatched).2.rsu_lapse_events.length =
      (processTxs false initSt wtxsUnmatched).2.rsu_deposit_events.length := by
    simp [wtxsUnmatched, processTxs, stepTx, initSt, alookup]
  exact ⟨hok, hun, (unmatched_deposit_fatal false wtxsUnmatched [] hok hun).2 hlen⟩

/-- C7: after a successful classification the RSU deposit and lapse stores
hold pairwise-distinct keys, and either the numbers of those distinct keys
agree or the run returns the structural-mismatch error carrying the
classified state untouched, i.e. it aborts before any split reconciliation
runs. -/
theorem rsu_count_check (forex : Bool) (txs : List Tx) (splits : List (Date × ℚ))
    (hok : (processTxs forex initSt txs).1 = none) :
    ((processTxs forex initSt txs).2.rsu_deposit_events.map Prod.fst).Nodup ∧
    ((processTxs forex initSt txs).2.rsu_lapse_events.map Prod.fst).Nodup ∧
    ((processTxs forex initSt txs).2.rsu_lapse_events.length =
        (processTxs forex initSt txs).2.rsu_deposit_events.length ∨
      process forex txs splits =
        (some (Err.countMismatch
            (processTxs forex initSt txs).2.rsu_lapse_events.length
            (processTxs forex initSt txs).2.rsu_deposit_events.length),
          (processTxs forex initSt txs).2)) := by
  have hnd := processTxs_keysNodup forex txs initSt initSt_keysNodup
  rcases hpt : processTxs forex initSt txs with ⟨e, s⟩
  rw [hpt] at hok hnd
  simp only at hok hnd ⊢
  subst hok
  refine ⟨hnd.1, hnd.2.1, ?_⟩
  by_cases hlen : s.rsu_lapse_events.length = s.rsu_deposit_events.length
  · exact Or.inl hlen
  · refine Or.inr ?_
    simp [process, hpt, hlen]

/-- Witness for C7: a log with one RSU deposit and no lapse. -/
theorem rsu_count_check_witness :
    (processTxs false initSt wtxsMismatch).1 = none ∧
    (((processTxs false initSt wtxsMismatch).2.rsu_deposit_events.map Prod.fst).Nodup ∧
      ((processTxs false initSt wtxsMismatch).2.rsu_lapse_events.map Prod.fst).Nodup ∧
      ((processTxs false initSt wtxsMismatch).2.rsu_lapse_events.length =
          (processTxs false initSt wtxsMismatch).2.rsu_deposit_events.length ∨
        process false wtxsMismatch [] =
          (some (Err.countMismatch
              (processTxs false initSt wtxsMismatch).2.rsu_lapse_events.length
              (processTxs false initSt wtxsMismatch).2.rsu_deposit_events.length),
            (processTxs false initSt wtxsMismatch).2))) := by
  have hok : (processTxs false initSt wtxsMismatch).1 = none := by
    simp [wtxsMismatch, processTxs, stepTx, initSt, alookup]
  exact ⟨hok, rsu_count_check false wtxsMismatch [] hok⟩

/-- C8: classifying a transaction whose key is already stored — an RSU
deposit with a duplicate (year, month, grant id) key, an RSU lapse with a
duplicate key, or an ESPP deposit with a duplicate purchase date — returns
the matching duplicate-key error and leaves the state, in particular the
corresponding store, unchanged. -/
theorem duplicate_key_aborts (forex : Bool) (s : St) (espp : ESPPRow)
    (tmpL tmpD : RSURow) (aL aD : String) :
    ((alookup s.espp_deposit_events espp.date).isSome = true →
      stepTx forex s (Tx.esppDeposit espp) =
        (some (Err.duplicateESPPDeposit espp.date), s)) ∧
    ((alookup s.rsu_lapse_events (tmpL.date.year, tmpL.date.month, aL)).isSome = true →
      stepTx forex s (Tx.rsuLapse tmpL aL) =
        (some (Err.duplicateRSULapse (tmpL.date.year, tmpL.date.month, aL)), s)) ∧
    ((alookup s.rsu_deposit_events (tmpD.date.year, tmpD.date.month, aD)).isSome = true →
      stepTx forex s (Tx.rsuDeposit tmpD aD) =
        (some (Err.duplicateRSUDeposit (tmpD.date.year, tmpD.date.month, aD)), s)) := by
  refine ⟨fun h => ?_, fun h => ?_, fun h => ?_⟩ <;> simp [stepTx, h]

/-- Witness for C8: all three duplicate-key branches exercised on wStDup. -/
theorem duplicate_key_aborts_witness :
    (alookup wStDup.espp_deposit_events (⟨2020, 5, 5⟩ : Date)).isSome = true ∧
    stepTx false wStDup (Tx.esppDeposit ⟨⟨2020, 5, 5⟩, 7, 8, 9, 0⟩) =
      (some (Err.duplicateESPPDeposit (⟨2020, 5, 5⟩ : Date)), wStDup) ∧
    stepTx false wStDup (Tx.rsuLapse ⟨⟨2021, 1, 20⟩, 0, 0, 0, 0⟩ "A") =
      (some (Err.duplicateRSULapse (2021, 1, "A")), wStDup) ∧
    stepTx false wStDup (Tx.rsuDeposit ⟨⟨2021, 1, 10⟩, 0, 0, 0, 0⟩ "A") =
      (some (Err.duplicateRSUDeposit (2021, 1, "A")), wStDup) := by
  have h1 : (alookup wStDup.espp_deposit_events
      ((⟨⟨2020, 5, 5⟩, 7, 8, 9, 0⟩ : ESPPRow).date)).isSome = true := by
    simp [wStDup, alookup]
  have h2 : (alookup wStDup.rsu_lapse_events
      ((⟨⟨2021, 1, 20⟩, 0, 0, 0, 0⟩ : RSURow).date.year,
        (⟨⟨2021, 1, 20⟩, 0, 0, 0, 0⟩ : RSURow).date.month, "A")).isSome = true := by
    simp [wStDup, alookup]
  have h3 : (alookup wStDup.rsu_deposit_events
      ((⟨⟨2021, 1, 10⟩, 0, 0, 0, 0⟩ : RSURow).date.year,
        (⟨⟨2021, 1, 10⟩, 0, 0, 0, 0⟩ : RSURow).date.month, "A")).isSome = true := by
    simp [wStDup, alookup]
  exact ⟨h1,
    (duplicate_key_aborts false wStDup ⟨⟨2020, 5, 5⟩, 7, 8, 9, 0⟩
      ⟨⟨2021, 1, 20⟩, 0, 0, 0, 0⟩ ⟨⟨2021, 1, 10⟩, 0, 0, 0, 0⟩ "A" "A").1 h1,
    (duplicate_key_aborts false wStDup ⟨⟨2020, 5, 5⟩, 7, 8, 9, 0⟩
      ⟨⟨2021, 1, 20⟩, 0, 0, 0, 0⟩ ⟨⟨2021, 1, 10⟩, 0, 0, 0, 0⟩ "A" "A").2.1 h2,
    (duplicate_key_aborts false wStDup ⟨⟨2020, 5, 5⟩, 7, 8, 9, 0⟩
      ⟨⟨2021, 1, 20⟩, 0, 0, 0, 0⟩ ⟨⟨2021, 1, 10⟩, 0, 0, 0, 0⟩ "A" "A").2.2 h3⟩

/-- C9: a sale detail referencing a lot absent from the matching deposit
store fails with the missing-lot error and leaves the state unchanged;
otherwise the share count of the detail is added to the sold counter of that
stored deposit, the entry of every other key and every other collection being
left as they were. -/
theorem sale_detail_attribution (s : St) (vestDate purchaseDate : Date)
    (grantId : String) (shares shares2 : Int) :
    (alookup s.rsu_deposit_events (vestDate.year, vestDate.month, grantId) = none →
      processDetail s (SaleDetail.rs vestDate grantId shares) =
        (some (Err.missingRSULot (vestDate.year, vestDate.month, grantId)), s)) ∧
    (∀ r, alookup s.rsu_deposit_events (vestDate.year, vestDate.month, grantId) = some r →
      processDetail s (SaleDetail.rs vestDate grantId shares) =
        (none,
          { s with
              rsu_deposit_events :=
                aupdate s.rsu_deposit_events (vestDate.year, vestDate.month, grantId)
                  (fun row => { row with sold := row.sold + (shares : ℚ) }) }) ∧
      alookup (aupdate s.rsu_deposit_events (vestDate.year, vestDate.month, grantId)
          (fun row => { row with sold := row.sold + (shares : ℚ) }))
          (vestDate.year, vestDate.month, grantId) =
        some { r with sold := r.sold + (shares : ℚ) } ∧
      (∀ k2, k2 ≠ (vestDate.year, vestDate.month, grantId) →
        alookup (aupdate s.rsu_deposit_events (vestDate.year, vestDate.month, grantId)
            (fun row => { row with sold := row.sold + (shares : ℚ) })) k2 =
          alookup s.rsu_deposit_events k2)) ∧
    (alookup s.espp_deposit_events purchaseDate = none →
      processDetail s (SaleDetail.espp purchaseDate shares2) =
        (some (Err.missingESPPLot purchaseDate), s)) ∧
    (∀ r, alookup s.espp_deposit_events purchaseDate = some r →
      processDetail s (SaleDetail.espp purchaseDate shares2) =
        (none,
          { s with
              espp_deposit_events :=
                aupdate s.espp_deposit_events purchaseDate
                  (fun row => { row with sold := row.sold + (shares2 : ℚ) }) }) ∧
      alookup (aupdate s.espp_deposit_events purchaseDate
          (fun row => { row with sold := row.sold + (shares2 : ℚ) })) purchaseDate =
        some { r with sold := r.sold + (shares2 : ℚ) } ∧
      (∀ k2, k2 ≠ purchaseDate →
        alookup (aupdate s.espp_deposit_events purchaseDate
            (fun row => { row with sold := row.sold + (shares2 : ℚ) })) k2 =
          alookup s.espp_deposit_events k2)) := by
  refine ⟨fun h => by simp [processDetail, h],
    fun r h => ⟨by simp [processDetail, h], ?_, fun k2 hk2 => alookup_aupdate_ne _ _ _ _ hk2⟩,
    fun h => by simp [processDetail, h],
    fun r h => ⟨by simp [processDetail, h], ?_, fun k2 hk2 => alookup_aupdate_ne _ _ _ _ hk2⟩⟩
  · rw [alookup_aupdate_self, h]
    rfl
  · rw [alookup_aupdate_self, h]
    rfl

/-- Witness for C9: missing and present lots of both kinds on wStSale. -/
theorem sale_detail_attribution_witness :
    (alookup wStSale.rsu_deposit_events (2021, 1, "B") = none ∧
      processDetail wStSale (SaleDetail.rs ⟨2021, 1, 10⟩ "B" 10) =
        (some (Err.missingRSULot (2021, 1, "B")), wStSale)) ∧
    (alookup wStSale.rsu_deposit_events (2021, 1, "A") =
        some ⟨⟨2021, 1, 10⟩, 0, 100, 50, 0⟩ ∧
      processDetail wStSale (SaleDetail.rs ⟨2021, 1, 10⟩ "A" 10) =
        (none,
          { wStSale with
              rsu_deposit_events :=
                aupdate wStSale.rsu_deposit_events (2021, 1, "A")
                  (fun row => { row with sold := row.sold + ((10 : Int) : ℚ) }) }) ∧
      alookup (aupdate wStSale.rsu_deposit_events (2021, 1, "A")
          (fun row => { row with sold := row.sold + ((10 : Int) : ℚ) }))
          (2021, 1, "A") =
        some { (⟨⟨2021, 1, 10⟩, 0, 100, 50, 0⟩ : RSURow) with
                 sold := (⟨⟨2021, 1, 10⟩, 0, 100, 50, 0⟩ : RSURow).sold + ((10 : Int) : ℚ) }) ∧
    (alookup wStSale.espp_deposit_events ⟨2020, 6, 6⟩ = none ∧
      processDetail wStSale (SaleDetail.espp ⟨2020, 6, 6⟩ 5) =
        (some (Err.missingESPPLot ⟨2020, 6, 6⟩), wStSale)) ∧
    (alookup wStSale.espp_deposit_events ⟨2020, 5, 5⟩ =
        some ⟨⟨2020, 5, 5⟩, 30, 10, 12, 0⟩ ∧
      processDetail wStSale (SaleDetail.espp ⟨2020, 5, 5⟩ 5) =
        (none,
          { wStSale with
              espp_deposit_events :=
                aupdate wStSale.espp_deposit_events ⟨2020, 5, 5⟩
                  (fun row => { row with sold := row.sold + ((5 : Int) : ℚ) }) })) := by
  have hm1 : alookup wStSale.rsu_deposit_events (2021, 1, "B") = none := by
    simp [wStSale, initSt, alookup]
  have hp1 : alookup wStSale.rsu_deposit_events (2021, 1, "A") =
      some ⟨⟨2021, 1, 10⟩, 0, 100, 50, 0⟩ := by
    simp [wStSale, initSt, alookup]
  have hm2 : alookup wStSale.espp_deposit_events (⟨2020, 6, 6⟩ : Date) = none := by
    simp [wStSale, initSt, alookup]
  have hp2 : alookup wStSale.espp_deposit_events (⟨2020, 5, 5⟩ : Date) =
      some ⟨⟨2020, 5, 5⟩, 30, 10, 12, 0⟩ := by
    simp [wStSale, initSt, alookup]
  refine ⟨⟨hm1, ?_⟩, ⟨hp1, ?_, ?_⟩, ⟨hm2, ?_⟩, ⟨hp2, ?_⟩⟩
  · exact (sale_detail_attribution wStSale ⟨2021, 1, 10⟩ ⟨2020, 6, 6⟩ "B" 10 5).1 hm1
  · exact ((sale_detail_attribution wStSale ⟨2021, 1, 10⟩ ⟨2020, 6, 6⟩ "A" 10 5).2.1
      ⟨⟨2021, 1, 10⟩, 0, 100, 50, 0⟩ hp1).1
  · exact ((sale_detail_attribution wStSale ⟨2021, 1, 10⟩ ⟨2020, 6, 6⟩ "A" 10 5).2.1
      ⟨⟨2021, 1, 10⟩, 0, 100, 50, 0⟩ hp1).2.1
  · exact (sale_detail_attribution wStSale ⟨2021, 1, 10⟩ ⟨2020, 6, 6⟩ "A" 10 5).2.2.1 hm2
  · exact ((sale_detail_attribution wStSale ⟨2021, 1, 10⟩ ⟨2020, 5, 5⟩ "A" 10 5).2.2.2
      ⟨⟨2020, 5, 5⟩, 30, 10, 12, 0⟩ hp2).1

/-- C10: for every transaction log, both settings of the wire-transfer mode
flag and every split table, the buy-orders category of the final state is
exactly the single empty-valued placeholder row: no classifier branch ever
appends a real buy event. -/
theorem buy_orders_always_single_placeholder (forex : Bool) (txs : List Tx)
    (splits : List (Date × ℚ)) :
    (process forex txs splits).2.buy_events = [Entry.empty] := by
  rcases hpt : processTxs forex initSt txs with ⟨e, s⟩
  have hbuy : s.buy_events = [Entry.empty] := by
    have := processTxs_buy forex txs initSt
    rw [hpt] at this
    simpa [initSt] using this
  cases e with
  | some err => simpa [process, hpt] using hbuy
  | none =>
    by_cases hlen : s.rsu_lapse_events.length = s.rsu_deposit_events.length
    · rcases hra : reconcileRSUAll splits s with ⟨e2, s1⟩
      have hbuy1 : s1.buy_events = [Entry.empty] := by
        have := reconcileRSUAll_buy splits s
        rw [hra] at this
        simp only at this
        rw [this, hbuy]
      cases e2 with
      | some err => simpa [process, hpt, hlen, hra] using hbuy1
      | none =>
        have hfinal : (addPlaceholders (reconcileESPPAll splits s1)).buy_events =
            s1.buy_events := rfl
        simp only [process, hpt, hlen]
        simpa [hra, hfinal] using hbuy1
    · simpa [process, hpt, hlen] using hbuy

end SchwabConv
